import Mathlib

/-!
Verification of the snapshot acquisition-and-emission pipeline of
`src/deps/v8/src/snapshot/mksnapshot.cc` against its natural-language
specification.

The C++ file is shallowly embedded:
* bytes are `Nat` values; the `uint8_t`/`unsigned char` casts become `% 256`;
* `fprintf`-style emission builds a `List Char`;
* the filesystem is an association list from paths to byte lists, and the
  OS-level outcomes that the code observes (number of bytes `fwrite`
  reported, whether `fopen` succeeded, whether `ferror` fired) are explicit
  oracle parameters;
* `exit(1)` and `CHECK`-failure become explicit terminal outcomes.
-/

namespace Mksnapshot

/-- The decimal digit characters used by `printf`-style unsigned decimal
output. Arguments `≥ 9` all map to `'9'`; the printer only applies it to
values `< 10`. -/
def digitChar : Nat → Char
  | 0 => '0'
  | 1 => '1'
  | 2 => '2'
  | 3 => '3'
  | 4 => '4'
  | 5 => '5'
  | 6 => '6'
  | 7 => '7'
  | 8 => '8'
  | _ => '9'

/-- Numeric value of a decimal digit character (inverse of `digitChar`). -/
def digitVal (c : Char) : Nat := c.toNat - 48

/-- Fuel-driven unsigned-decimal printer: most significant digit first.
`fuel > n` always suffices, since the recursion divides by 10. -/
def printUDecAux : Nat → Nat → List Char
  | 0, _ => []
  | fuel + 1, n =>
    if n < 10 then [digitChar n]
    else printUDecAux fuel (n / 10) ++ [digitChar (n % 10)]

/-- Embeds `fprintf(fp, "%u", v)`: the unsigned decimal rendering of `n`. -/
def printUDec (n : Nat) : List Char := printUDecAux (n + 1) n

/-- Embeds the loop body of `SnapshotWriter::WriteSnapshotData`, starting at
index `i`: before byte `i`, a line break when `(i & 0x1f) == 0x1f`, a comma
when `i > 0`, then the byte printed via `%u` after the
`static_cast<unsigned char>` cast (`% 256`). -/
def writeSnapshotDataLoop : Nat → List Nat → List Char
  | _, [] => []
  | i, b :: bs =>
    (if i &&& 0x1f = 0x1f then ['\n'] else []) ++
    (if 0 < i then [','] else []) ++
    printUDec (b % 256) ++
    writeSnapshotDataLoop (i + 1) bs

/-- Embeds `SnapshotWriter::WriteSnapshotData`: the loop over all bytes
followed by the final `fprintf(fp, "\n")`. -/
def writeSnapshotData (blob : List Nat) : List Char :=
  writeSnapshotDataLoop 0 blob ++ ['\n']

/-- Embeds `SnapshotWriter::WriteData`: the array-literal declaration around
`WriteSnapshotData`, the `blob_size` constant printed with `%d` (the length
is a nonnegative `int` in the source, so it prints as unsigned decimal), and
the packaged `StartupData` value. -/
def writeData (blob : List Nat) : List Char :=
  "static const byte blob_data[] = \x7b\n".data ++
  writeSnapshotData blob ++
  "\x7d;\n".data ++
  "static const int blob_size = ".data ++
  printUDec blob.length ++
  ";\n".data ++
  "static const v8::StartupData blob =\n".data ++
  "\x7b (const char*) blob_data, blob_size \x7d;\n".data

/-- Embeds `SnapshotWriter::WriteFilePrefix` (fixed scaffolding text). -/
def fileProlog : List Char :=
  ("// Autogenerated snapshot file. Do not edit.\n\n" ++
   "#include \"src/v8.h\"\n" ++
   "#include \"src/base/platform/platform.h\"\n\n" ++
   "#include \"src/snapshot/snapshot.h\"\n\n" ++
   "namespace v8 \x7b\n" ++
   "namespace internal \x7b\n\n").data

/-- Embeds `SnapshotWriter::WriteFileSuffix` (fixed scaffolding text). -/
def fileEpilog : List Char :=
  ("const v8::StartupData* Snapshot::DefaultSnapshotBlob() \x7b\n" ++
   "  return &blob;\n" ++
   "\x7d\n\n" ++
   "\x7d  // namespace internal\n" ++
   "\x7d  // namespace v8\n").data

/-- Full text of a generated snapshot source file:
prefix scaffolding, data section, suffix scaffolding. -/
def snapshotSourceText (blob : List Nat) : List Char :=
  fileProlog ++ writeData blob ++ fileEpilog

/-! ## Filesystem and process model -/

/-- A filesystem: an association list from paths to byte contents.
Earlier entries shadow later ones. -/
abbrev FS := List (String × List Nat)

/-- Contents of a path, if the file exists. -/
def FS.get : FS → String → Option (List Nat)
  | [], _ => none
  | (q, v) :: fs, p => if q = p then some v else FS.get fs p

/-- Create or overwrite a file (what `fopen(path, "wb")` followed by writes
amounts to). -/
def FS.set (fs : FS) (p : String) (v : List Nat) : FS := (p, v) :: fs

/-- Delete a file (what `remove(path)` amounts to). -/
def FS.remove : FS → String → FS
  | [], _ => []
  | (q, v) :: fs, p =>
    if q = p then FS.remove fs p else (q, v) :: FS.remove fs p

/-- Filesystem operations the tool performs, in order. -/
inductive FsEvent where
  | openWrite (p : String)
  | openRead (p : String)
  | writeBytes (p : String) (bs : List Nat)
  | removeFile (p : String)
deriving DecidableEq

/-- Result of a writer operation: the filesystem afterwards, the filesystem
events performed, the messages printed, and `some code` when the operation
called `exit(code)`. -/
structure WriterResult where
  fs : FS
  events : List FsEvent
  msgs : List String
  exitCode : Option Nat
deriving DecidableEq

/-- Embeds `SnapshotWriter::MaybeWriteStartupBlob`. Oracle parameters:
`openOk` is whether `GetFileDescriptorOrDie`'s `fopen` succeeds (on failure
it prints and exits 1), and `written` is the byte count `fwrite` reports
(the OS wrote the first `written` bytes; callers constrain
`written ≤ blob.length`). When `written != blob.length` the code prints,
removes the target path and exits 1. -/
def maybeWriteStartupBlob (path : Option String) (blob : List Nat)
    (openOk : Bool) (written : Nat) (fs : FS) : WriterResult :=
  match path with
  | none => ⟨fs, [], [], none⟩
  | some p =>
    if openOk then
      let fs1 := FS.set fs p (blob.take written)
      if written ≠ blob.length then
        ⟨FS.remove fs1 p,
         [.openWrite p, .writeBytes p (blob.take written), .removeFile p],
         ["Writing snapshot file failed.. Aborting.\n"], some 1⟩
      else
        ⟨fs1, [.openWrite p, .writeBytes p (blob.take written)], [], none⟩
    else
      ⟨fs, [.openWrite p],
       ["Unable to open file \"" ++ p ++ "\" for writing.\n"], some 1⟩

/-- Embeds `SnapshotWriter::MaybeWriteSnapshotFile`: when the source path is
set and the open succeeds, the full generated source text is written (as
bytes). -/
def maybeWriteSnapshotFile (path : Option String) (blob : List Nat)
    (openOk : Bool) (fs : FS) : WriterResult :=
  match path with
  | none => ⟨fs, [], [], none⟩
  | some p =>
    if openOk then
      let bytes := (snapshotSourceText blob).map Char.toNat
      ⟨FS.set fs p bytes, [.openWrite p, .writeBytes p bytes], [], none⟩
    else
      ⟨fs, [.openWrite p],
       ["Unable to open file \"" ++ p ++ "\" for writing.\n"], some 1⟩

/-- Embeds `SnapshotWriter::WriteSnapshot`: the source sub-write runs first,
then (unless the process already exited) the binary sub-write. -/
def writeSnapshot (cppPath blobPath : Option String) (blob : List Nat)
    (cppOpenOk blobOpenOk : Bool) (written : Nat) (fs : FS) : WriterResult :=
  let r1 := maybeWriteSnapshotFile cppPath blob cppOpenOk fs
  match r1.exitCode with
  | some _ => r1
  | none =>
    let r2 := maybeWriteStartupBlob blobPath blob blobOpenOk written r1.fs
    ⟨r2.fs, r1.events ++ r2.events, r1.msgs ++ r2.msgs, r2.exitCode⟩

/-- Outcome of the post-pipeline step of `main`: either the `CHECK(blob.data)`
assertion aborted the process, or the writer ran to an outcome. -/
inductive MainOutcome where
  | aborted
  | completed (r : WriterResult)
deriving DecidableEq

/-- Embeds the tail of `main`: `CHECK(blob.data)` followed by
`writer.WriteSnapshot(blob)`. A `none` blob models `blob.data == NULL`. -/
def checkAndWrite (cppPath blobPath : Option String)
    (blobData : Option (List Nat)) (cppOpenOk blobOpenOk : Bool)
    (written : Nat) (fs : FS) : MainOutcome :=
  match blobData with
  | none => .aborted
  | some blob =>
    .completed (writeSnapshot cppPath blobPath blob cppOpenOk blobOpenOk written fs)

/-- Result of `GetExtraCode`: the returned buffer (`none` models returning
`NULL`), the exit code if the function terminated the process, the stderr
diagnostic if any, the stdout messages, and the filesystem events. -/
structure LoadResult where
  script : Option (List Nat)
  exitCode : Option Nat
  stderrMsg : Option String
  stdoutMsgs : List String
  events : List FsEvent
deriving DecidableEq

/-- Embeds `GetExtraCode`. A `none` filename models a `NULL` pointer.
Oracle parameters: `readErr` is whether `ferror` fires during the read loop,
and `errno` is the OS error number at a failure. On success the returned
buffer is the file's bytes (length found by seek-to-end/`ftell`/`rewind`,
here the stored content's length) followed by the sentinel byte 0. -/
def getExtraCode (filename : Option String) (description : String)
    (fs : FS) (readErr : Bool) (errno : Nat) : LoadResult :=
  match filename with
  | none => ⟨none, none, none, [], []⟩
  | some f =>
    if f.length = 0 then ⟨none, none, none, [], []⟩
    else
      let progress := "Loading script for " ++ description ++ ": " ++ f ++ "\n"
      match FS.get fs f with
      | none =>
        ⟨none, some 1,
         some ("Failed to open \x27" ++ f ++ "\x27: errno " ++ toString errno ++ "\n"),
         [progress], [.openRead f]⟩
      | some content =>
        if readErr then
          ⟨none, some 1,
           some ("Failed to read \x27" ++ f ++ "\x27: errno " ++ toString errno ++ "\n"),
           [progress], [.openRead f]⟩
        else
          ⟨some (content ++ [0]), none, none, [progress], [.openRead f]⟩

/-! ## The spec's parser and the spec's formatting rule -/

/-- Separator predicate, modelled from the spec: tokens are split on commas
and line breaks, ignoring whitespace. -/
def isSep (c : Char) : Bool := c = ',' || c.isWhitespace

/-- Accumulator-based tokenizer: maximal runs of non-separator characters. -/
def splitTokensAux : List Char → List Char → List (List Char)
  | [], acc => if acc = [] then [] else [acc.reverse]
  | c :: cs, acc =>
    if isSep c then
      if acc = [] then splitTokensAux cs []
      else acc.reverse :: splitTokensAux cs []
    else splitTokensAux cs (c :: acc)

/-- Modelled from the spec: split the emitted body on commas and line
breaks, ignoring whitespace; empty segments are dropped. -/
def splitTokens (s : List Char) : List (List Char) := splitTokensAux s []

/-- Modelled from the spec: the numeric value of one decimal token. -/
def tokenToNat (t : List Char) : Nat :=
  t.foldl (fun acc c => acc * 10 + digitVal c) 0

/-- Modelled from the spec: parse an emitted byte-array body back into the
sequence of integers it denotes. -/
def parseArrayBody (s : List Char) : List Nat :=
  (splitTokens s).map tokenToNat

/-- Follows the spec's words for the byte-array body, for comparison with
`writeSnapshotDataLoop`: iterating bytes in index order, a line break is
emitted before the byte at every index whose low 5 bits are all set
(`i % 32 = 31`), a separating comma before every byte except the first, and
each byte as its unsigned decimal value. -/
def specByteArrayBodyLoop : Nat → List Nat → List Char
  | _, [] => []
  | i, b :: bs =>
    (if i % 32 = 31 then ['\n'] else []) ++
    (if i ≠ 0 then [','] else []) ++
    printUDec b ++
    specByteArrayBodyLoop (i + 1) bs

/-- Follows the spec's words: the byte-array body with exactly one trailing
line break after the last byte. -/
def specByteArrayBody (blob : List Nat) : List Char :=
  specByteArrayBodyLoop 0 blob ++ ['\n']

/-- `true` when the list is empty or its first character is a separator. -/
def headSep : List Char → Bool
  | [] => true
  | c :: _ => isSep c

/-- The opening of the array body that the spec's concrete scenario claims
for the 34-byte blob `[0,1,...,33]`: the values 0 through 31 on the first
line, a line break, then `,32,33`. -/
def c3ClaimedStart : List Char :=
  ("0,1,2,3,4,5,6,7,8,9,10,11,12,13,14,15,16,17,18,19,20,21,22,23,24,25," ++
   "26,27,28,29,30,31\n,32,33").data

/-- The array body the code actually emits for the 34-byte blob
`[0,1,...,33]`: values 0 through 30 on the first line, a line break before
index 31, then `,31,32,33` and the trailing line break. -/
def c3ActualBody : List Char :=
  ("0,1,2,3,4,5,6,7,8,9,10,11,12,13,14,15,16,17,18,19,20,21,22,23,24,25," ++
   "26,27,28,29,30\n,31,32,33\n").data

/-! ## Lemmas about the decimal printer -/

theorem digitVal_digitChar {d : Nat} (h : d < 10) :
    digitVal (digitChar d) = d := by
  interval_cases d <;> decide

theorem digitChar_not_sep {d : Nat} (h : d < 10) :
    isSep (digitChar d) = false := by
  interval_cases d <;> decide

theorem digitChar_ne_nl {d : Nat} (h : d < 10) : digitChar d ≠ '\n' := by
  interval_cases d <;> decide

theorem printUDecAux_ne_nil : ∀ fuel n, n < fuel → printUDecAux fuel n ≠ [] := by
  intro fuel
  induction fuel with
  | zero => intro n h; omega
  | succ fuel ih =>
    intro n _
    by_cases h10 : n < 10
    · simp [printUDecAux, h10]
    · simp [printUDecAux, h10]

theorem mem_printUDecAux : ∀ fuel n, n < fuel → ∀ c ∈ printUDecAux fuel n,
    ∃ d, d < 10 ∧ c = digitChar d := by
  intro fuel
  induction fuel with
  | zero => intro n h; omega
  | succ fuel ih =>
    intro n hn c hc
    by_cases h10 : n < 10
    · simp [printUDecAux, h10] at hc
      exact ⟨n, h10, hc⟩
    · simp only [printUDecAux, h10, if_false, List.mem_append,
        List.mem_singleton] at hc
      rcases hc with hc | hc
      · have hdiv : n / 10 < fuel := by omega
        exact ih (n / 10) hdiv c hc
      · exact ⟨n % 10, by omega, hc⟩

theorem printUDecAux_foldl : ∀ fuel n, n < fuel → ∀ a,
    ∃ k, List.foldl (fun acc c => acc * 10 + digitVal c) a (printUDecAux fuel n)
      = a * 10 ^ k + n := by
  intro fuel
  induction fuel with
  | zero => intro n h; omega
  | succ fuel ih =>
    intro n hn a
    by_cases h10 : n < 10
    · refine ⟨1, ?_⟩
      simp [printUDecAux, h10, digitVal_digitChar h10]
    · have hdiv : n / 10 < fuel := by omega
      obtain ⟨k, hk⟩ := ih (n / 10) hdiv a
      refine ⟨k + 1, ?_⟩
      have hm : n % 10 < 10 := by omega
      simp only [printUDecAux, h10, if_false, List.foldl_append, hk,
        List.foldl_cons, List.foldl_nil, digitVal_digitChar hm]
      calc (a * 10 ^ k + n / 10) * 10 + n % 10
          = a * (10 ^ k * 10) + (n / 10 * 10 + n % 10) := by ring
        _ = a * 10 ^ (k + 1) + n := by rw [← pow_succ]; congr 1; omega

theorem printUDec_ne_nil (n : Nat) : printUDec n ≠ [] :=
  printUDecAux_ne_nil _ _ (Nat.lt_succ_self n)

theorem mem_printUDec {n : Nat} {c : Char} (h : c ∈ printUDec n) :
    ∃ d, d < 10 ∧ c = digitChar d :=
  mem_printUDecAux _ _ (Nat.lt_succ_self n) c h

theorem printUDec_not_sep {n : Nat} {c : Char} (h : c ∈ printUDec n) :
    isSep c = false := by
  obtain ⟨d, hd, rfl⟩ := mem_printUDec h
  exact digitChar_not_sep hd

theorem tokenToNat_printUDec (n : Nat) : tokenToNat (printUDec n) = n := by
  obtain ⟨k, hk⟩ := printUDecAux_foldl (n + 1) n (Nat.lt_succ_self n) 0
  simpa [tokenToNat, printUDec] using hk

theorem count_nl_printUDec (n : Nat) : (printUDec n).count '\n' = 0 := by
  refine List.count_eq_zero.2 ?_
  intro hmem
  obtain ⟨d, hd, hdc⟩ := mem_printUDec hmem
  exact digitChar_ne_nl hd hdc.symm

/-! ## Lemmas about the spec's tokenizer -/

theorem splitTokensAux_extend :
    ∀ (t : List Char), (∀ c ∈ t, isSep c = false) →
    ∀ (s acc : List Char),
      splitTokensAux (t ++ s) acc = splitTokensAux s (t.reverse ++ acc) := by
  intro t
  induction t with
  | nil => intro _ s acc; simp
  | cons c t ih =>
    intro h s acc
    have hc : isSep c = false := h c (List.mem_cons_self c t)
    have ht : ∀ x ∈ t, isSep x = false := fun x hx => h x (List.mem_cons_of_mem c hx)
    simp only [List.cons_append, splitTokensAux, hc, Bool.false_eq_true,
      if_false, List.append_eq]
    rw [ih ht s (c :: acc)]
    simp

theorem splitTokensAux_emit :
    ∀ (s acc : List Char), headSep s = true → acc ≠ [] →
      splitTokensAux s acc = acc.reverse :: splitTokensAux s [] := by
  intro s acc hs hacc
  cases s with
  | nil => simp [splitTokensAux, hacc]
  | cons c cs =>
    have hc : isSep c = true := hs
    simp [splitTokensAux, hc, hacc]

theorem splitTokens_token (t s : List Char)
    (h1 : ∀ c ∈ t, isSep c = false) (h2 : t ≠ []) (h3 : headSep s = true) :
    splitTokens (t ++ s) = t :: splitTokens s := by
  unfold splitTokens
  rw [splitTokensAux_extend t h1 s [], List.append_nil,
    splitTokensAux_emit s t.reverse h3 (by simpa using h2), List.reverse_reverse]

theorem splitTokens_sep_cons {c : Char} (h : isSep c = true) (s : List Char) :
    splitTokens (c :: s) = splitTokens s := by
  simp [splitTokens, splitTokensAux, h]

theorem splitTokens_sep_append :
    ∀ (pre : List Char), (∀ c ∈ pre, isSep c = true) →
    ∀ (s : List Char), splitTokens (pre ++ s) = splitTokens s := by
  intro pre
  induction pre with
  | nil => intro _ s; rfl
  | cons c pre ih =>
    intro h s
    rw [List.cons_append, splitTokens_sep_cons (h c (List.mem_cons_self c pre))]
    exact ih (fun x hx => h x (List.mem_cons_of_mem c hx)) s

theorem splitTokens_nil : splitTokens [] = [] := rfl

theorem splitTokens_nl : splitTokens ['\n'] = [] := by decide

/-! ## Lemmas about the emitted array body -/

theorem writeSnapshotDataLoop_headSep :
    ∀ (bs : List Nat) (i : Nat), 0 < i →
      headSep (writeSnapshotDataLoop i bs ++ ['\n']) = true := by
  intro bs i hi
  cases bs with
  | nil => simp [writeSnapshotDataLoop, headSep, isSep]
  | cons b bs =>
    by_cases hb : i &&& 0x1f = 0x1f
    · simp [writeSnapshotDataLoop, hb, headSep, isSep]
    · simp [writeSnapshotDataLoop, hb, hi, headSep, isSep]

theorem sep_chars_nl_comma (i : Nat) :
    ∀ c ∈ ((if i &&& 0x1f = 0x1f then ['\n'] else []) ++
           (if 0 < i then [','] else []) : List Char), isSep c = true := by
  intro c hc
  rcases List.mem_append.mp hc with h | h
  · split at h
    · simp at h; subst h; decide
    · simp at h
  · split at h
    · simp at h; subst h; decide
    · simp at h

theorem splitTokens_writeSnapshotDataLoop :
    ∀ (bs : List Nat) (i : Nat),
      splitTokens (writeSnapshotDataLoop i bs ++ ['\n']) =
        bs.map (fun b => printUDec (b % 256)) := by
  intro bs
  induction bs with
  | nil => intro i; exact splitTokens_nl
  | cons b bs ih =>
    intro i
    have hpre := sep_chars_nl_comma i
    have htok : ∀ c ∈ printUDec (b % 256), isSep c = false :=
      fun c hc => printUDec_not_sep hc
    have hhead : headSep (writeSnapshotDataLoop (i + 1) bs ++ ['\n']) = true :=
      writeSnapshotDataLoop_headSep bs (i + 1) (Nat.succ_pos i)
    calc splitTokens (writeSnapshotDataLoop i (b :: bs) ++ ['\n'])
        = splitTokens
            (((if i &&& 0x1f = 0x1f then ['\n'] else []) ++
              (if 0 < i then [','] else [])) ++
             (printUDec (b % 256) ++
              (writeSnapshotDataLoop (i + 1) bs ++ ['\n']))) := by
          simp [writeSnapshotDataLoop, List.append_assoc]
      _ = splitTokens
            (printUDec (b % 256) ++
             (writeSnapshotDataLoop (i + 1) bs ++ ['\n'])) :=
          splitTokens_sep_append _ hpre _
      _ = printUDec (b % 256) ::
            splitTokens (writeSnapshotDataLoop (i + 1) bs ++ ['\n']) :=
          splitTokens_token _ _ htok (printUDec_ne_nil _) hhead
      _ = (b :: bs).map (fun b => printUDec (b % 256)) := by
          rw [ih (i + 1)]; rfl

theorem count_nl_writeSnapshotDataLoop :
    ∀ (bs : List Nat) (i : Nat),
      (writeSnapshotDataLoop i bs).count '\n' + i / 32 = (i + bs.length) / 32 := by
  intro bs
  induction bs with
  | nil => intro i; simp [writeSnapshotDataLoop]
  | cons b bs ih =>
    intro i
    have hand : i &&& 0x1f = i % 32 := by
      have h := Nat.and_pow_two_sub_one_eq_mod i 5
      norm_num at h
      exact h
    have hsucc : (i + 1) / 32 = i / 32 + if 32 ∣ i + 1 then 1 else 0 :=
      Nat.succ_div i 32
    have hih := ih (i + 1)
    have hcnt : (writeSnapshotDataLoop i (b :: bs)).count '\n' =
        (if i % 32 = 31 then 1 else 0) +
          (writeSnapshotDataLoop (i + 1) bs).count '\n' := by
      simp only [writeSnapshotDataLoop, List.count_append, hand]
      rw [count_nl_printUDec]
      split <;> split <;> simp [List.count_cons]
    rw [hcnt]
    have hlen : i + (b :: bs).length = (i + 1) + bs.length := by
      simp [List.length_cons]; omega
    rw [hlen]
    by_cases h31 : i % 32 = 31
    · have hdvd : 32 ∣ i + 1 := by omega
      simp only [h31, if_pos, hdvd] at hsucc ⊢
      omega
    · have hdvd : ¬ 32 ∣ i + 1 := by omega
      simp only [h31, if_neg, hdvd] at hsucc ⊢
      omega

theorem writeSnapshotDataLoop_eq_spec :
    ∀ (bs : List Nat) (i : Nat), (∀ b ∈ bs, b < 256) →
      writeSnapshotDataLoop i bs = specByteArrayBodyLoop i bs := by
  intro bs
  induction bs with
  | nil => intro i _; rfl
  | cons b bs ih =>
    intro i h
    have hb : b < 256 := h b (List.mem_cons_self b bs)
    have hand : i &&& 0x1f = i % 32 := by
      have h5 := Nat.and_pow_two_sub_one_eq_mod i 5
      norm_num at h5
      exact h5
    simp only [writeSnapshotDataLoop, specByteArrayBodyLoop, hand,
      Nat.mod_eq_of_lt hb,
      ih (i + 1) (fun x hx => h x (List.mem_cons_of_mem b hx)),
      Nat.pos_iff_ne_zero]

/-! ## Lemmas about the filesystem model -/

theorem FS.get_remove : ∀ (fs : FS) (p : String),
    FS.get (FS.remove fs p) p = none := by
  intro fs p
  induction fs with
  | nil => rfl
  | cons e fs ih =>
    obtain ⟨q, v⟩ := e
    by_cases h : q = p
    · simp [FS.remove, h, ih]
    · simp [FS.remove, FS.get, h, ih]

theorem FS.get_set (fs : FS) (p : String) (v : List Nat) :
    FS.get (FS.set fs p v) p = some v := by
  simp [FS.get, FS.set]

/-! ## Claim theorems -/

/-- C1: For every blob (non-null data, length fitting an int, bytes in
[0,255]), parsing the byte-array body emitted by `WriteSnapshotData` —
splitting on commas and line breaks, ignoring whitespace — yields exactly
the blob's bytes in order, with exactly as many values as the blob has
bytes, each value in [0,255]. -/
theorem c1_array_literal_decoding (blob : List Nat)
    (h256 : ∀ b ∈ blob, b < 256) (hfit : blob.length < 2 ^ 31) :
    parseArrayBody (writeSnapshotData blob) = blob ∧
    (parseArrayBody (writeSnapshotData blob)).length = blob.length ∧
    ∀ v ∈ parseArrayBody (writeSnapshotData blob), v ≤ 255 := by
  have hmain : parseArrayBody (writeSnapshotData blob) = blob := by
    unfold parseArrayBody writeSnapshotData
    rw [splitTokens_writeSnapshotDataLoop blob 0, List.map_map]
    have hcg : ∀ b ∈ blob, (tokenToNat ∘ fun b => printUDec (b % 256)) b = id b := by
      intro b hb
      simp [Function.comp, tokenToNat_printUDec, Nat.mod_eq_of_lt (h256 b hb)]
    rw [List.map_congr_left hcg, List.map_id]
  refine ⟨hmain, by rw [hmain], ?_⟩
  intro v hv
  rw [hmain] at hv
  have := h256 v hv
  omega

theorem c1_witness :
    ((∀ b ∈ ([0, 31, 255] : List Nat), b < 256) ∧
      ([0, 31, 255] : List Nat).length < 2 ^ 31) ∧
    (parseArrayBody (writeSnapshotData [0, 31, 255]) = [0, 31, 255] ∧
     (parseArrayBody (writeSnapshotData [0, 31, 255])).length =
       ([0, 31, 255] : List Nat).length ∧
     ∀ v ∈ parseArrayBody (writeSnapshotData [0, 31, 255]), v ≤ 255) :=
  ⟨⟨by decide, by decide⟩,
   c1_array_literal_decoding [0, 31, 255] (by decide) (by decide)⟩

/-- C2: For every blob of bytes in [0,255], the byte-array body produced by
`WriteSnapshotData` follows exactly the spec's rule: a line break before
every index whose low 5 bits are all set, a comma before every byte except
the first, each byte as its unsigned decimal value, and exactly one
trailing line break after the last byte (`specByteArrayBody` is that rule,
written from the spec's words). -/
theorem c2_formatting_rule (blob : List Nat) (h256 : ∀ b ∈ blob, b < 256) :
    writeSnapshotData blob = specByteArrayBody blob := by
  unfold writeSnapshotData specByteArrayBody
  rw [writeSnapshotDataLoop_eq_spec blob 0 h256]

theorem c2_witness :
    (∀ b ∈ ([5, 77, 200] : List Nat), b < 256) ∧
    writeSnapshotData [5, 77, 200] = specByteArrayBody [5, 77, 200] :=
  ⟨by decide, c2_formatting_rule [5, 77, 200] (by decide)⟩

set_option maxRecDepth 10000 in
/-- C3 counterexample: for the blob [0,1,...,33], the emitted body does
NOT begin with `0,1,...,30,31` followed by a line break and `,32,33` —
the code emits the line break before index 31, not after it. -/
theorem c3_counterexample :
    ¬ ((writeSnapshotData (List.range 34)).take c3ClaimedStart.length
        = c3ClaimedStart) := by decide

set_option maxRecDepth 10000 in
/-- C3 (amended): for the blob [0,1,...,33], the emitted body is
`0,1,...,30`, a line break, then `,31,32,33` and the trailing line break;
and the length constant is emitted as 34. -/
theorem c3_amended_concrete :
    writeSnapshotData (List.range 34) = c3ActualBody ∧
    writeData (List.range 34) =
      "static const byte blob_data[] = \x7b\n".data ++ c3ActualBody ++
      ("\x7d;\n" ++ "static const int blob_size = 34;\n" ++
       "static const v8::StartupData blob =\n" ++
       "\x7b (const char*) blob_data, blob_size \x7d;\n").data :=
  ⟨by decide, by decide⟩

/-- C4 counterexample: for the 2-byte blob [0,0], the number of line breaks
inside the array body (before the trailing one) is 0, not
floor((2 + 31 - 1)/32) = 1. -/
theorem c4_counterexample :
    ¬ ((writeSnapshotDataLoop 0 [0, 0]).count '\n' = (2 + 31 - 1) / 32) := by
  decide

/-- C4 (amended): for a blob of length N > 0, the number of line breaks
inserted inside the array body equals floor(N/32) (one break before each
index congruent to 31 mod 32), a trailing break is always present, and the
output is deterministic — identical blob bytes give byte-identical
output. -/
theorem c4_line_break_count (blob : List Nat) (hN : 0 < blob.length) :
    (writeSnapshotDataLoop 0 blob).count '\n' = blob.length / 32 ∧
    writeSnapshotData blob = writeSnapshotDataLoop 0 blob ++ ['\n'] ∧
    ∀ blob2 : List Nat, blob2 = blob →
      writeSnapshotData blob2 = writeSnapshotData blob := by
  refine ⟨?_, rfl, fun blob2 h => by rw [h]⟩
  have h := count_nl_writeSnapshotDataLoop blob 0
  simpa using h

theorem c4_witness :
    0 < ([9] : List Nat).length ∧
    ((writeSnapshotDataLoop 0 [9]).count '\n' = ([9] : List Nat).length / 32 ∧
     writeSnapshotData [9] = writeSnapshotDataLoop 0 [9] ++ ['\n'] ∧
     ∀ blob2 : List Nat, blob2 = [9] →
       writeSnapshotData blob2 = writeSnapshotData [9]) :=
  ⟨by decide, c4_line_break_count [9] (by decide)⟩

/-- C5: in the binary sub-write, whenever the number of bytes reported
written differs from the blob's length, the partially-written output file
is deleted and the process exits with status 1; the target path never
retains a truncated snapshot file on this detected condition. (The source
sub-write, which runs first in `WriteSnapshot`, has already completed by
this point, and nothing runs after the exit.) -/
theorem c5_short_write_cleanup (cppPath : Option String) (p : String)
    (blob : List Nat) (written : Nat) (fs : FS)
    (hw : written ≤ blob.length) (hne : written ≠ blob.length) :
    (writeSnapshot cppPath (some p) blob true true written fs).exitCode = some 1 ∧
    FS.get (writeSnapshot cppPath (some p) blob true true written fs).fs p = none := by
  cases cppPath with
  | none =>
    simp [writeSnapshot, maybeWriteSnapshotFile, maybeWriteStartupBlob, hne,
      FS.get_remove]
  | some q =>
    simp [writeSnapshot, maybeWriteSnapshotFile, maybeWriteStartupBlob, hne,
      FS.get_remove]

theorem c5_witness :
    ((2 : Nat) ≤ ([1, 2, 3] : List Nat).length ∧
      (2 : Nat) ≠ ([1, 2, 3] : List Nat).length) ∧
    ((writeSnapshot none (some "snapshot.bin") [1, 2, 3] true true 2 []).exitCode
        = some 1 ∧
     FS.get (writeSnapshot none (some "snapshot.bin") [1, 2, 3] true true 2 []).fs
        "snapshot.bin" = none) :=
  ⟨⟨by decide, by decide⟩,
   c5_short_write_cleanup none "snapshot.bin" [1, 2, 3] 2 [] (by decide) (by decide)⟩

/-- C6: if the final blob's data pointer is null, the program aborts
unconditionally (the `CHECK(blob.data)` assertion) before any write is
attempted; a null buffer is never passed to the writer and never treated as
a valid zero-length blob. -/
theorem c6_null_blob_aborts (cppPath blobPath : Option String)
    (cppOpenOk blobOpenOk : Bool) (written : Nat) (fs : FS) :
    checkAndWrite cppPath blobPath none cppOpenOk blobOpenOk written fs
        = .aborted ∧
    ∀ r : WriterResult,
      checkAndWrite cppPath blobPath none cppOpenOk blobOpenOk written fs
        ≠ .completed r := by
  refine ⟨rfl, fun r h => ?_⟩
  simp [checkAndWrite] at h

/-- C7: if neither output path is set, `WriteSnapshot` performs no
filesystem mutation — no file opened, nothing written, nothing deleted, no
message, no failure — and each sub-write independently skips with no error
when its own path is absent. -/
theorem c7_no_paths_no_mutation (blob : List Nat) (cppOpenOk blobOpenOk : Bool)
    (written : Nat) (fs : FS) :
    writeSnapshot none none blob cppOpenOk blobOpenOk written fs
        = ⟨fs, [], [], none⟩ ∧
    maybeWriteSnapshotFile none blob cppOpenOk fs = ⟨fs, [], [], none⟩ ∧
    maybeWriteStartupBlob none blob blobOpenOk written fs = ⟨fs, [], [], none⟩ :=
  ⟨rfl, rfl, rfl⟩

/-- C8: for a script-path argument that is absent (null) or an empty
string, `GetExtraCode` returns "no script" without any file open and
without the progress message, and behaves identically to omitting the
argument entirely. -/
theorem c8_missing_script_no_op (filename : Option String)
    (h : filename = none ∨ filename = some "")
    (d : String) (fs : FS) (readErr : Bool) (errno : Nat) :
    getExtraCode filename d fs readErr errno = ⟨none, none, none, [], []⟩ ∧
    getExtraCode filename d fs readErr errno
      = getExtraCode none d fs readErr errno := by
  rcases h with h | h <;> subst h
  · exact ⟨rfl, rfl⟩
  · exact ⟨by simp [getExtraCode], by simp [getExtraCode]⟩

theorem c8_witness :
    ((some "" : Option String) = none ∨ (some "" : Option String) = some "") ∧
    (getExtraCode (some "") "embedding" [] false 0 = ⟨none, none, none, [], []⟩ ∧
     getExtraCode (some "") "embedding" [] false 0
       = getExtraCode none "embedding" [] false 0) :=
  ⟨Or.inr rfl,
   c8_missing_script_no_op (some "") (Or.inr rfl) "embedding" [] false 0⟩

/-- C9: for a successfully opened script file of length L, `GetExtraCode`
returns a buffer of exactly L+1 bytes: the file's content in order followed
by the sentinel byte 0; and a mid-read error (`ferror`, not mere EOF) is
fatal (exit 1) with a diagnostic naming the path and the OS error code. -/
theorem c9_script_load (f d : String) (fs : FS) (content : List Nat)
    (errno : Nat) (hne : ¬ f.length = 0) (hf : FS.get fs f = some content) :
    ((getExtraCode (some f) d fs false errno).script = some (content ++ [0]) ∧
     (content ++ [0]).length = content.length + 1 ∧
     (content ++ [0]).take content.length = content ∧
     (content ++ [0]).getLast? = some 0) ∧
    ((getExtraCode (some f) d fs true errno).exitCode = some 1 ∧
     (getExtraCode (some f) d fs true errno).stderrMsg =
       some ("Failed to read \x27" ++ f ++ "\x27: errno "
         ++ toString errno ++ "\n")) := by
  refine ⟨⟨?_, by simp, ?_, List.getLast?_concat content⟩, ?_, ?_⟩
  · simp [getExtraCode, hne, hf]
  · simp
  · simp [getExtraCode, hne, hf]
  · simp [getExtraCode, hne, hf]

theorem c9_witness :
    (¬ ("a.js" : String).length = 0 ∧
      FS.get [("a.js", [104, 105])] "a.js" = some [104, 105]) ∧
    (((getExtraCode (some "a.js") "embedding" [("a.js", [104, 105])] false 7).script
        = some ([104, 105] ++ [0]) ∧
      (([104, 105] : List Nat) ++ [0]).length = ([104, 105] : List Nat).length + 1 ∧
      (([104, 105] : List Nat) ++ [0]).take ([104, 105] : List Nat).length
        = [104, 105] ∧
      (([104, 105] : List Nat) ++ [0]).getLast? = some 0) ∧
     ((getExtraCode (some "a.js") "embedding" [("a.js", [104, 105])] true 7).exitCode
        = some 1 ∧
      (getExtraCode (some "a.js") "embedding" [("a.js", [104, 105])] true 7).stderrMsg
        = some ("Failed to read \x27" ++ "a.js" ++ "\x27: errno "
            ++ toString (7 : Nat) ++ "\n"))) :=
  ⟨⟨by decide, by decide⟩,
   c9_script_load "a.js" "embedding" [("a.js", [104, 105])] [104, 105] 7
     (by decide) (by decide)⟩

/-- C10: for a zero-length blob (non-null data), the source sub-write emits
an array body of exactly one line break — no digits, no commas — with a
length constant of 0; the binary sub-write writes zero bytes, the
short-write check passes, and the process neither deletes the file nor
exits on the failure path. -/
theorem c10_empty_blob (p : String) (fs : FS) :
    writeSnapshotData [] = ['\n'] ∧
    writeData [] =
      ("static const byte blob_data[] = \x7b\n\n\x7d;\n" ++
       "static const int blob_size = 0;\n" ++
       "static const v8::StartupData blob =\n" ++
       "\x7b (const char*) blob_data, blob_size \x7d;\n").data ∧
    maybeWriteStartupBlob (some p) [] true 0 fs =
      ⟨FS.set fs p [], [.openWrite p, .writeBytes p []], [], none⟩ ∧
    FS.get (maybeWriteStartupBlob (some p) [] true 0 fs).fs p = some [] ∧
    (maybeWriteStartupBlob (some p) [] true 0 fs).exitCode = none := by
  refine ⟨rfl, by decide, rfl, ?_, rfl⟩
  simp [maybeWriteStartupBlob, FS.get, FS.set]

end Mksnapshot
